import Mathlib

/-
Verification of the pytest test-filtering pipeline (conftest.py and
Pipeline.py): a shallow embedding of the date filter stage, the fixture
parameter grouping stage, the pipeline composition, and the grouping
result data structure, together with theorems settling the specification
claims about them.
-/

set_option autoImplicit false

namespace PytestPipeline

/-! ## String model

Python string operations used by the source: `str.lower()` and the
substring test `needle in hay`.  Tokens and identifiers in this code base
are ASCII, where `Char.toLower` agrees with Python `str.lower`. -/

/-- Python `s.lower()` on the character list of a string. -/
def pyLower (s : String) : String :=
  ⟨s.data.map Char.toLower⟩

/-- Boolean prefix test on character lists. -/
def isPrefixCh : List Char → List Char → Bool
  | [], _ => true
  | _ :: _, [] => false
  | a :: as, b :: bs => a = b && isPrefixCh as bs

/-- Boolean infix (contiguous substring) test on character lists;
the empty list is an infix of everything, matching Python `"" in s`. -/
def isInfixCh (p : List Char) : List Char → Bool
  | [] => isPrefixCh p []
  | c :: rest => isPrefixCh p (c :: rest) || isInfixCh p rest

/-- Python `needle in hay` for strings. -/
def strIn (needle hay : String) : Bool :=
  isInfixCh needle.data hay.data

/-! ## Python value model

Marker arguments in the source are arbitrary Python objects; the code
only distinguishes strings (`isinstance(arg, str)`) and list/tuple values
(`isinstance(value, (list, tuple))`), treating everything else as inert. -/

/-- An element of a `days` list/tuple as far as the source inspects it:
the loop only tests `isinstance(day, str)`, so an element is a string or
anything else (including a nested list, never opened). -/
inductive PyLeaf where
  | str (s : String)
  | other
deriving DecidableEq

/-- A Python object as far as the source inspects it: a string, a
list/tuple of elements, or anything else. -/
inductive PyObj where
  | str (s : String)
  | listOf (items : List PyLeaf)
  | other
deriving DecidableEq

/-- A `run_days` marker: positional args and keyword args, as carried by
`pytest.Mark` (`args` tuple and `kwargs` dict, the latter embedded as an
association list of unique keys). -/
structure RunDaysMark where
  args : List PyObj
  kwargs : List (String × PyObj)
deriving DecidableEq

/-- A collected pytest item, restricted to the attributes the pipeline
reads: `item.get_closest_marker("run_days")` (the `runDays` field),
`item.callspec.params` (a dict of parameter name to the textual form
`str(value)` of the resolved value, absent when the test is not
parametrized), and `item.funcargs` (a dict of fixture name to the textual
form of the resolved fixture value, absent when not populated).  The
grouping stage only ever uses `str(param_value)`, so values are embedded
by their textual form. -/
structure TestItem where
  name : String
  runDays : Option RunDaysMark
  callspecParams : Option (List (String × String))
  funcargs : Option (List (String × String))
deriving DecidableEq

/-! ## Date filter stage (conftest.py lines 116-203; identical text in
Pipeline.py lines 92-179) -/

/-- A day of the week, the actual day named by an injected
`datetime` value. -/
inductive Weekday where
  | monday | tuesday | wednesday | thursday | friday | saturday | sunday
deriving DecidableEq

/-- Python `datetime.weekday()`: Monday is 0 and Sunday is 6.  This is
fixed library behaviour, part of the meaning of line 156 of conftest.py
`current_day = (self._current_time or datetime.now()).weekday()`. -/
def pyWeekday : Weekday → Nat
  | .monday => 0
  | .tuesday => 1
  | .wednesday => 2
  | .thursday => 3
  | .friday => 4
  | .saturday => 5
  | .sunday => 6

/-- `DateFilterStage.WEEKDAY_MAP` (conftest.py lines 125-133), embedded
as lookup in the dict literal: sun 0, mon 1, tue 2, wed 3, thu 4, fri 5,
sat 6, with full names as synonyms. -/
def WEEKDAY_MAP : String → Option Nat
  | "sun" => some 0
  | "sunday" => some 0
  | "mon" => some 1
  | "monday" => some 1
  | "tue" => some 2
  | "tuesday" => some 2
  | "wed" => some 3
  | "wednesday" => some 3
  | "thu" => some 4
  | "thursday" => some 4
  | "fri" => some 5
  | "friday" => some 5
  | "sat" => some 6
  | "saturday" => some 6
  | _ => none

/-- `DateFilterStage.WEEKEND_DAYS = {5, 6}` (conftest.py line 135). -/
def WEEKEND_DAYS : List Nat := [5, 6]

/-- Python `set.add`: insert without duplicating.  `allowed_days` is a
Python set; it is embedded as a duplicate-free list. -/
def setAdd (s : List Nat) (x : Nat) : List Nat :=
  if x ∈ s then s else s ++ [x]

/-- Python `set.update` with an iterable. -/
def setUpdate (s : List Nat) (xs : List Nat) : List Nat :=
  xs.foldl setAdd s

/-- Handling of one string token (conftest.py lines 186-190 and the
identical lines 197-201): lower-case it; `weekend` adds `WEEKEND_DAYS`;
a `WEEKDAY_MAP` key adds its index; anything else is ignored. -/
def processToken (allowed : List Nat) (tok : String) : List Nat :=
  let tl := pyLower tok
  if tl = "weekend" then
    setUpdate allowed WEEKEND_DAYS
  else
    match WEEKDAY_MAP tl with
    | some d => setAdd allowed d
    | none => allowed

/-- The loop over marker positional arguments (conftest.py lines
184-190): non-string arguments are skipped. -/
def processArgs (allowed : List Nat) : List PyObj → List Nat
  | [] => allowed
  | PyObj.str s :: rest => processArgs (processToken allowed s) rest
  | _ :: rest => processArgs allowed rest

/-- The loop over the elements of a `days` keyword value (conftest.py
lines 195-201), textually identical token handling to the positional
loop; non-string elements are skipped. -/
def processDaysList (allowed : List Nat) : List PyLeaf → List Nat
  | [] => allowed
  | PyLeaf.str s :: rest => processDaysList (processToken allowed s) rest
  | _ :: rest => processDaysList allowed rest

/-- The loop over marker keyword arguments (conftest.py lines 193-201):
an entry whose key lower-cases to `days` and whose value is a list or
tuple has its string elements processed like positional tokens. -/
def processKwargs (allowed : List Nat) : List (String × PyObj) → List Nat
  | [] => allowed
  | (k, v) :: rest =>
    let allowed2 :=
      if pyLower k = "days" then
        match v with
        | PyObj.listOf items => processDaysList allowed items
        | _ => allowed
      else allowed
    processKwargs allowed2 rest

/-- The `allowed_days` set built by `DateFilterStage._should_run_today`
(conftest.py lines 181-201) from a present `run_days` marker. -/
def allowedDaysOf (m : RunDaysMark) : List Nat :=
  processKwargs (processArgs [] m.args) m.kwargs

/-- `DateFilterStage._should_run_today` (conftest.py lines 165-203): no
marker means run always; otherwise build `allowed_days` and return
`current_day in allowed_days if allowed_days else True`. -/
def shouldRunToday (t : TestItem) (currentDay : Nat) : Bool :=
  match t.runDays with
  | none => true
  | some m =>
    let allowed := allowedDaysOf m
    if allowed.isEmpty then true else allowed.contains currentDay

/-- The state of `DateFilterStage`: the optional injected
`current_time`, reduced to the day of the week, the only part of the
datetime the stage reads. -/
structure DateFilterStage where
  currentTime : Option Weekday

/-- The accumulation loop of `DateFilterStage.apply` (conftest.py lines
157-163): `filtered_tests = []` then append each test that should run
today. -/
def dateFilterLoop (currentDay : Nat) (acc : List TestItem) :
    List TestItem → List TestItem
  | [] => acc
  | t :: ts =>
    dateFilterLoop currentDay
      (if shouldRunToday t currentDay then acc ++ [t] else acc) ts

/-- `DateFilterStage.apply` (conftest.py lines 146-163).  `now` is the
day `datetime.now()` would report, used only when no current time was
injected. -/
def DateFilterStage.apply (s : DateFilterStage) (now : Weekday)
    (tests : List TestItem) : List TestItem :=
  let currentDay := pyWeekday (s.currentTime.getD now)
  dateFilterLoop currentDay [] tests

/-! ## Pipeline composition -/

/-- conftest.py `TestFilterPipeline` (lines 39-113): an ordered list of
stages.  For the claims settled here stages are list transformers; the
Python class is untyped in the stage output. -/
structure TestFilterPipeline where
  stagesList : List (List TestItem → List TestItem)

/-- `TestFilterPipeline.clear` (conftest.py lines 106-108 and
Pipeline.py lines 82-84): remove all stages. -/
def TestFilterPipeline.clear (p : TestFilterPipeline) : TestFilterPipeline :=
  { p with stagesList := [] }

/-- conftest.py `TestFilterPipeline.apply` (lines 87-104).  When the
stage list is empty the source calls `self._build_stages_from_config()`,
a method whose definition is commented out (lines 59-72), so Python
raises `AttributeError` there; the embedding returns that error.
Otherwise each stage is applied in order to the running result. -/
def conftestPipelineApply (p : TestFilterPipeline) (tests : List TestItem) :
    Except String (List TestItem) :=
  match p.stagesList with
  | [] => Except.error "AttributeError: TestFilterPipeline object has no attribute _build_stages_from_config"
  | ss => Except.ok (ss.foldl (fun result stage => stage result) tests)

/-- Pipeline.py `TestFilterPipeline.apply` (lines 67-80): fold the
stages over the input with no empty-stage special case. -/
def pipelinePyApply (stages : List (List TestItem → List TestItem))
    (tests : List TestItem) : List TestItem :=
  stages.foldl (fun result stage => stage result) tests

/-! ## Fixture parameter grouping stage (conftest.py lines 206-340) -/

/-- `FixtureParameterGroups` (conftest.py lines 206-222): a dict of group
name to member list (embedded as an association list in insertion order,
keys unique as in a Python dict), plus the unmatched list. -/
structure FixtureParameterGroups where
  groups : List (String × List TestItem)
  unmatched : List TestItem
deriving DecidableEq

/-- First-match association-list lookup, the embedding of a Python dict
read. -/
def lookupA {α : Type} (k : String) : List (String × α) → Option α
  | [] => none
  | (k2, v) :: rest => if k2 = k then some v else lookupA k rest

/-- `FixtureParameterGroups.get_group` (conftest.py lines 212-214):
`self.groups.get(group_name, [])`. -/
def FixtureParameterGroups.get_group (g : FixtureParameterGroups)
    (groupName : String) : List TestItem :=
  (lookupA groupName g.groups).getD []

/-- `FixtureParameterGroups.get_group_names` (conftest.py lines
220-222): `list(self.groups.keys())`. -/
def FixtureParameterGroups.get_group_names (g : FixtureParameterGroups) :
    List String :=
  g.groups.map Prod.fst

/-- The candidate values gathered by
`FixtureParameterGroupingStage._find_matching_groups` (conftest.py lines
315-335): start empty, extend with `callspec.params.values()` when the
test has a callspec (the params attribute of a pytest CallSpec2 is a
dict, so the dict branch of the source is the live one), then extend
with `funcargs.values()` when `funcargs` is a dict.  The final
`if not parameter_values: parameter_values = []` of the source is a
no-op. -/
def candidateValues (t : TestItem) : List String :=
  (match t.callspecParams with
   | some ps => ps.map Prod.snd
   | none => []) ++
  (match t.funcargs with
   | some fa => fa.map Prod.snd
   | none => [])

/-- The inner loop of `_find_matching_groups` (conftest.py lines
337-339) for one candidate value: append each group name whose
identifier list has a member occurring, lower-cased, inside the
lower-cased textual form of the value. -/
def matchGroupsForValue (gm : List (String × List String)) (v : String) :
    List String :=
  match gm with
  | [] => []
  | (g, ids) :: rest =>
    if ids.any (fun ident => strIn (pyLower ident) (pyLower v)) then
      g :: matchGroupsForValue rest v
    else
      matchGroupsForValue rest v

/-- The outer loop of `_find_matching_groups` (conftest.py line 336)
over all candidate values, appending in order. -/
def matchGroupsForValues (gm : List (String × List String)) :
    List String → List String
  | [] => []
  | v :: vs => matchGroupsForValue gm v ++ matchGroupsForValues gm vs

/-- `FixtureParameterGroupingStage._find_matching_groups` (conftest.py
lines 299-340). -/
def findMatchingGroups (gm : List (String × List String)) (t : TestItem) :
    List String :=
  matchGroupsForValues gm (candidateValues t)

/-- `groups[group_name].append(test)` (conftest.py line 287): append to
the entry of the given key.  Keys looked up always exist (they come from
the group mapping that seeded the dict), so the absent-key case never
arises on reachable states. -/
def updateGroup (groups : List (String × List TestItem)) (g : String)
    (t : TestItem) : List (String × List TestItem) :=
  match groups with
  | [] => []
  | (k, l) :: rest =>
    if k = g then (k, l ++ [t]) :: rest else (k, l) :: updateGroup rest g t

/-- The loop `for group_name in assigned_groups` (conftest.py lines
286-289), appending the test to each assigned group in order.  The
`test.add_marker(...)` side effect mutates host marker state that no
part of the pipeline reads back, and does not change item identity. -/
def addToGroups (groups : List (String × List TestItem)) (t : TestItem) :
    List String → List (String × List TestItem)
  | [] => groups
  | g :: gs => addToGroups (updateGroup groups g t) t gs

/-- The body of the per-test loop of `FixtureParameterGroupingStage.apply`
(conftest.py lines 280-291): truthiness of `assigned_groups` decides
between the group branch and the unmatched branch. -/
def fpgStep (gm : List (String × List String)) (st : FixtureParameterGroups)
    (t : TestItem) : FixtureParameterGroups :=
  let assigned := findMatchingGroups gm t
  if assigned.isEmpty then
    { st with unmatched := st.unmatched ++ [t] }
  else
    { st with groups := addToGroups st.groups t assigned }

/-- The per-test loop of `FixtureParameterGroupingStage.apply` run over
the whole input. -/
def fpgLoop (gm : List (String × List String)) (st : FixtureParameterGroups) :
    List TestItem → FixtureParameterGroups
  | [] => st
  | t :: ts => fpgLoop gm (fpgStep gm st t) ts

/-- `groups = {group_name: [] for group_name in self.group_mappings.keys()}`
(conftest.py line 277). -/
def initGroups (gm : List (String × List String)) :
    List (String × List TestItem) :=
  gm.map (fun e => (e.1, []))

/-- The grouping aggregate built inside `FixtureParameterGroupingStage.apply`
(conftest.py lines 277-291): the dict of per-group member lists and the
unmatched list as they stand when the loop finishes. -/
def fpgComputeGroups (gm : List (String × List String))
    (tests : List TestItem) : FixtureParameterGroups :=
  fpgLoop gm { groups := initGroups gm, unmatched := [] } tests

/-- `FixtureParameterGroupingStage.apply` (conftest.py lines 261-293):
the aggregate is computed (and markers attached), but the function then
executes `return tests`, returning its input list; the
`return FixtureParameterGroups(...)` lines 294-297 are commented out. -/
def fpgApply (gm : List (String × List String)) (tests : List TestItem) :
    List TestItem :=
  let _ := fpgComputeGroups gm tests
  tests

/-! ## Concrete items and mappings used by evaluations and witnesses -/

/-- A test carrying `@pytest.mark.run_days("mon")`. -/
def testMon : TestItem :=
  { name := "test_mon", runDays := some { args := [PyObj.str "mon"], kwargs := [] },
    callspecParams := none, funcargs := none }

/-- A test carrying `@pytest.mark.run_days("weekend")`. -/
def testWeekendMark : TestItem :=
  { name := "test_weekend", runDays := some { args := [PyObj.str "weekend"], kwargs := [] },
    callspecParams := none, funcargs := none }

/-- A test carrying `@pytest.mark.run_days("funday")`, an unrecognized
token only. -/
def testFunday : TestItem :=
  { name := "test_funday", runDays := some { args := [PyObj.str "funday"], kwargs := [] },
    callspecParams := none, funcargs := none }

/-- A parametrized test whose sole resolved parameter value is the
string `other`. -/
def testOther : TestItem :=
  { name := "test_other", runDays := none,
    callspecParams := some [("mode", "other")], funcargs := none }

/-- A parametrized test whose sole resolved parameter value is the
string `quick_mode`. -/
def testQuickMode : TestItem :=
  { name := "test_quick_mode", runDays := none,
    callspecParams := some [("mode", "quick_mode")], funcargs := none }

/-- A parametrized test whose sole resolved parameter value is the
string `quick_slow_combo`. -/
def testQuickSlowCombo : TestItem :=
  { name := "test_quick_slow_combo", runDays := none,
    callspecParams := some [("mode", "quick_slow_combo")], funcargs := none }

/-- A parametrized test with two resolved parameter values, `quick` and
`quick_mode`, both containing the identifier `quick`. -/
def testDoubleQuick : TestItem :=
  { name := "test_double_quick", runDays := none,
    callspecParams := some [("a", "quick"), ("b", "quick_mode")], funcargs := none }

/-- A test with both a resolved parametrization map (value `x`) and a
resolved fixture-value map (value `slow_path`). -/
def testBothSources : TestItem :=
  { name := "test_both_sources", runDays := none,
    callspecParams := some [("p", "x")], funcargs := some [("f", "slow_path")] }

/-- The group mapping of the specification examples:
`{"fast": ["quick"], "slow": ["slow"]}`. -/
def gmFastSlow : List (String × List String) := [("fast", ["quick"]), ("slow", ["slow"])]

/-- A one-group mapping `{"fast": ["quick"]}`. -/
def gmFast : List (String × List String) := [("fast", ["quick"])]

/-- A one-group mapping `{"slow": ["slow"]}`. -/
def gmSlow : List (String × List String) := [("slow", ["slow"])]

/-- A concrete grouping result with one configured group. -/
def sampleGroups : FixtureParameterGroups :=
  { groups := [("fast", [testQuickMode])], unmatched := [] }

/-- The multiset of copies a fixed group receives from a run of the
grouping loop: one copy of each test per occurrence of the group name in
the assigned-groups list of that test. -/
def groupTail (gm : List (String × List String)) (g : String)
    (ts : List TestItem) : List TestItem :=
  ts.flatMap (fun t => List.replicate ((findMatchingGroups gm t).count g) t)

/-! ## Helper lemmas -/

theorem dateFilterLoop_eq (d : Nat) (ts : List TestItem) :
    ∀ acc, dateFilterLoop d acc ts = acc ++ ts.filter (fun t => shouldRunToday t d) := by
  induction ts with
  | nil => intro acc; simp [dateFilterLoop]
  | cons t ts ih =>
    intro acc
    cases h : shouldRunToday t d <;>
      simp [dateFilterLoop, h, ih, List.filter_cons]

theorem matchGroupsForValue_eq (gm : List (String × List String)) (v : String) :
    matchGroupsForValue gm v =
      (gm.filter fun e => e.2.any fun ident => strIn (pyLower ident) (pyLower v)).map
        Prod.fst := by
  induction gm with
  | nil => rfl
  | cons e rest ih =>
    obtain ⟨k, ids⟩ := e
    by_cases h : (ids.any fun ident => strIn (pyLower ident) (pyLower v)) = true <;>
      simp [matchGroupsForValue, List.filter_cons, h, ih]

theorem matchGroupsForValues_eq (gm : List (String × List String)) (vs : List String) :
    matchGroupsForValues gm vs = vs.flatMap (matchGroupsForValue gm) := by
  induction vs with
  | nil => rfl
  | cons v vs ih => simp [matchGroupsForValues, ih]

theorem mem_findMatchingGroups (gm : List (String × List String)) (t : TestItem)
    (g : String) :
    g ∈ findMatchingGroups gm t ↔
      ∃ ids, (g, ids) ∈ gm ∧ ∃ v ∈ candidateValues t, ∃ ident ∈ ids,
        strIn (pyLower ident) (pyLower v) = true := by
  simp only [findMatchingGroups, matchGroupsForValues_eq, matchGroupsForValue_eq,
    List.mem_flatMap, List.mem_map, List.mem_filter, List.any_eq_true]
  constructor
  · rintro ⟨v, hv, ⟨k, ids⟩, ⟨hm, ident, hid, hin⟩, rfl⟩
    exact ⟨ids, hm, v, hv, ident, hid, hin⟩
  · rintro ⟨ids, hm, v, hv, ident, hid, hin⟩
    exact ⟨v, hv, ⟨g, ids⟩, ⟨hm, ident, hid, hin⟩, rfl⟩

theorem findMatchingGroups_sub_keys (gm : List (String × List String))
    (t : TestItem) (g : String) (h : g ∈ findMatchingGroups gm t) :
    g ∈ gm.map Prod.fst := by
  obtain ⟨ids, hm, -⟩ := (mem_findMatchingGroups gm t g).mp h
  exact List.mem_map.mpr ⟨(g, ids), hm, rfl⟩

theorem lookupA_isSome_iff {α : Type} (g : String) (l : List (String × α)) :
    (lookupA g l).isSome = true ↔ g ∈ l.map Prod.fst := by
  induction l with
  | nil => simp [lookupA]
  | cons e rest ih =>
    obtain ⟨k, v⟩ := e
    simp only [List.map_cons, List.mem_cons]
    by_cases h : k = g
    · subst h
      simp [lookupA]
    · rw [lookupA, if_neg h, ih]
      constructor
      · exact Or.inr
      · rintro (rfl | hm)
        · exact absurd rfl h
        · exact hm

theorem lookupA_mem_iff {α : Type} (g : String) (v : α) (l : List (String × α))
    (hnd : (l.map Prod.fst).Nodup) :
    (g, v) ∈ l ↔ lookupA g l = some v := by
  induction l with
  | nil => simp [lookupA]
  | cons e rest ih =>
    obtain ⟨k, w⟩ := e
    simp only [List.map_cons, List.nodup_cons] at hnd
    by_cases h : k = g
    · subst h
      rw [lookupA, if_pos rfl]
      simp only [List.mem_cons, Prod.mk.injEq, Option.some.injEq]
      constructor
      · rintro (⟨-, rfl⟩ | hm)
        · rfl
        · exact absurd (List.mem_map.mpr ⟨(k, v), hm, rfl⟩) hnd.1
      · rintro rfl
        simp
    · rw [lookupA, if_neg h, ← ih hnd.2]
      simp only [List.mem_cons, Prod.mk.injEq]
      constructor
      · rintro (⟨rfl, -⟩ | hm)
        · exact absurd rfl h
        · exact hm
      · exact Or.inr

theorem lookupA_updateGroup (groups : List (String × List TestItem))
    (g0 g : String) (t : TestItem) :
    lookupA g (updateGroup groups g0 t) =
      if g0 = g then (lookupA g groups).map (fun l => l ++ [t])
      else lookupA g groups := by
  induction groups with
  | nil => by_cases h : g0 = g <;> simp [updateGroup, lookupA, h]
  | cons e rest ih =>
    obtain ⟨k, l⟩ := e
    by_cases hk : k = g0 <;> by_cases hg : g0 = g
    · subst hk; subst hg
      simp [updateGroup, lookupA]
    · subst hk
      have hkg : k ≠ g := hg
      simp [updateGroup, lookupA, hkg, hg]
    · subst hg
      have hkg : k ≠ g0 := hk
      simp [updateGroup, lookupA, hk, hkg, ih]
    · by_cases hkg : k = g
      · subst hkg
        simp [updateGroup, lookupA, hk, hg]
      · simp [updateGroup, lookupA, hk, hkg, hg, ih]

theorem lookupA_addToGroups (t : TestItem) (gs : List String) :
    ∀ (groups : List (String × List TestItem)) (g : String),
      lookupA g (addToGroups groups t gs) =
        (lookupA g groups).map (fun l => l ++ List.replicate (gs.count g) t) := by
  induction gs with
  | nil =>
    intro groups g
    cases h : lookupA g groups <;> simp [addToGroups, h]
  | cons g0 gs ih =>
    intro groups g
    rw [addToGroups, ih, lookupA_updateGroup]
    by_cases h : g0 = g
    · subst h
      cases lookupA g0 groups <;>
        simp [List.count_cons, List.replicate_succ, List.append_assoc]
    · cases lookupA g groups <;> simp [List.count_cons, h]

theorem keys_updateGroup (groups : List (String × List TestItem))
    (g : String) (t : TestItem) :
    (updateGroup groups g t).map Prod.fst = groups.map Prod.fst := by
  induction groups with
  | nil => rfl
  | cons e rest ih =>
    obtain ⟨k, l⟩ := e
    by_cases h : k = g <;> simp [updateGroup, h, ih]

theorem keys_addToGroups (t : TestItem) (gs : List String) :
    ∀ groups : List (String × List TestItem),
      (addToGroups groups t gs).map Prod.fst = groups.map Prod.fst := by
  induction gs with
  | nil => intro groups; rfl
  | cons g0 gs ih => intro groups; rw [addToGroups, ih, keys_updateGroup]

theorem keys_fpgLoop (gm : List (String × List String)) (ts : List TestItem) :
    ∀ st : FixtureParameterGroups,
      ((fpgLoop gm st ts).groups).map Prod.fst = st.groups.map Prod.fst := by
  induction ts with
  | nil => intro st; rfl
  | cons t ts ih =>
    intro st
    rw [fpgLoop, ih, fpgStep]
    by_cases h : (findMatchingGroups gm t).isEmpty <;>
      simp [h, keys_addToGroups]

theorem fpgLoop_unmatched (gm : List (String × List String)) (ts : List TestItem) :
    ∀ st : FixtureParameterGroups,
      (fpgLoop gm st ts).unmatched =
        st.unmatched ++ ts.filter (fun t => (findMatchingGroups gm t).isEmpty) := by
  induction ts with
  | nil => intro st; simp [fpgLoop]
  | cons t ts ih =>
    intro st
    rw [fpgLoop, ih, fpgStep]
    by_cases h : (findMatchingGroups gm t).isEmpty <;>
      simp [h, List.filter_cons, List.append_assoc]

theorem fpgLoop_lookup (gm : List (String × List String)) (g : String)
    (ts : List TestItem) :
    ∀ st : FixtureParameterGroups,
      lookupA g (fpgLoop gm st ts).groups =
        (lookupA g st.groups).map (fun l => l ++ groupTail gm g ts) := by
  induction ts with
  | nil =>
    intro st
    cases h : lookupA g st.groups <;> simp [fpgLoop, groupTail, h]
  | cons t ts ih =>
    intro st
    rw [fpgLoop, ih]
    by_cases h : (findMatchingGroups gm t).isEmpty
    · rw [List.isEmpty_iff] at h
      have hstep : fpgStep gm st t = { st with unmatched := st.unmatched ++ [t] } := by
        simp [fpgStep, h]
      rw [hstep]
      cases hL : lookupA g st.groups <;> simp [hL, groupTail, h]
    · have h2 : (findMatchingGroups gm t).isEmpty = false := by
        cases hE : (findMatchingGroups gm t).isEmpty
        · rfl
        · exact absurd hE h
      have hstep : fpgStep gm st t =
          { st with groups := addToGroups st.groups t (findMatchingGroups gm t) } := by
        simp [fpgStep, h2]
      rw [hstep]
      have hgr : ({ st with groups := addToGroups st.groups t (findMatchingGroups gm t) } :
          FixtureParameterGroups).groups =
          addToGroups st.groups t (findMatchingGroups gm t) := rfl
      rw [hgr, lookupA_addToGroups]
      cases hL : lookupA g st.groups <;> simp [hL, groupTail, List.append_assoc]

theorem mem_groupTail (gm : List (String × List String)) (g : String)
    (ts : List TestItem) (x : TestItem) :
    x ∈ groupTail gm g ts ↔ x ∈ ts ∧ g ∈ findMatchingGroups gm x := by
  simp only [groupTail, List.mem_flatMap, List.mem_replicate]
  constructor
  · rintro ⟨t, ht, hn, rfl⟩
    exact ⟨ht, List.count_pos_iff.mp (Nat.pos_of_ne_zero hn)⟩
  · rintro ⟨hx, hg⟩
    exact ⟨x, hx, Nat.pos_iff_ne_zero.mp (List.count_pos_iff.mpr hg), rfl⟩

theorem lookupA_initGroups (gm : List (String × List String)) (g : String) :
    lookupA g (initGroups gm) =
      if g ∈ gm.map Prod.fst then some [] else none := by
  induction gm with
  | nil => simp [initGroups, lookupA]
  | cons e rest ih =>
    obtain ⟨k, ids⟩ := e
    have hcons : initGroups ((k, ids) :: rest) =
        (k, ([] : List TestItem)) :: initGroups rest := rfl
    rw [hcons, lookupA]
    simp only [List.map_cons, List.mem_cons]
    by_cases h : k = g
    · subst h
      rw [if_pos rfl, if_pos (Or.inl rfl)]
    · rw [if_neg h, ih]
      by_cases hm : g ∈ rest.map Prod.fst
      · rw [if_pos hm, if_pos (Or.inr hm)]
      · rw [if_neg hm, if_neg ?_]
        rintro (rfl | hmem)
        · exact h rfl
        · exact hm hmem


/-! ## Claim theorems -/

/-- Claim C1 (code evaluated at the failing input): the claim says a test
annotated `run_days("mon")` is included exactly when the injected current
day is Monday.  The code maps the token `mon` to index 1 while
`datetime.weekday()` reports 0 for Monday, so `DateFilterStage.apply`
excludes the test when the injected day is an actual Monday and includes
it when it is an actual Tuesday. -/
theorem runDays_mon_eval :
    DateFilterStage.apply { currentTime := some Weekday.monday } Weekday.sunday
      [testMon] = [] ∧
    DateFilterStage.apply { currentTime := some Weekday.tuesday } Weekday.sunday
      [testMon] = [testMon] ∧
    pyWeekday Weekday.monday = 0 ∧ WEEKDAY_MAP "mon" = some 1 := by
  decide

/-- Claim C2 (code evaluated at the failing input): the claim says a test
annotated `run_days("weekend")` is included exactly on Friday and
Saturday.  `WEEKEND_DAYS = {5, 6}` is read against `datetime.weekday()`
(Monday 0 based), under which 5 is Saturday and 6 is Sunday, so
`DateFilterStage.apply` excludes the test on an actual Friday and
includes it on an actual Saturday and an actual Sunday. -/
theorem runDays_weekend_eval :
    DateFilterStage.apply { currentTime := some Weekday.friday } Weekday.sunday
      [testWeekendMark] = [] ∧
    DateFilterStage.apply { currentTime := some Weekday.saturday } Weekday.sunday
      [testWeekendMark] = [testWeekendMark] ∧
    DateFilterStage.apply { currentTime := some Weekday.sunday } Weekday.sunday
      [testWeekendMark] = [testWeekendMark] ∧
    WEEKEND_DAYS = [5, 6] ∧ pyWeekday Weekday.friday = 4 := by
  decide

/-- Claim C3 (code evaluated at the failing input): the claim says
`FixtureParameterGroupingStage.apply` returns the grouping aggregate and
not the test sequence.  The source returns `tests` for every input (the
aggregate return is commented out); at the concrete input the aggregate
that the docstring promises is computed but discarded. -/
theorem grouping_apply_returns_input :
    (∀ (gm : List (String × List String)) (ts : List TestItem),
        fpgApply gm ts = ts) ∧
    fpgApply gmFastSlow [testOther] = [testOther] ∧
    fpgComputeGroups gmFastSlow [testOther] =
      { groups := [("fast", []), ("slow", [])], unmatched := [testOther] } :=
  ⟨fun _ _ => rfl, by decide, by decide⟩

/-- Claim C4 counterexample: a test with two candidate values that both
contain the identifier of one group is appended to that group once per
matching value, so it appears twice in a single group membership list,
refuting the never-more-than-once part of the claim. -/
theorem grouping_duplicate_counterexample :
    (fpgComputeGroups gmFast [testDoubleQuick]).groups =
      [("fast", [testDoubleQuick, testDoubleQuick])] ∧
    ((fpgComputeGroups gmFast [testDoubleQuick]).get_group "fast").count
      testDoubleQuick = 2 := by
  decide

/-- Claim C4 as amended: every input test lands in the unmatched list or
in at least one group membership list but never in both, and a test is a
member of exactly the groups it matches; multiplicity inside one group
list is not bounded by one (it is one occurrence per matching candidate
value). -/
theorem grouping_membership_invariant (gm : List (String × List String))
    (tests : List TestItem) (t : TestItem)
    (hnd : (gm.map Prod.fst).Nodup) (ht : t ∈ tests) :
    (t ∈ (fpgComputeGroups gm tests).unmatched ∨
      ∃ e ∈ (fpgComputeGroups gm tests).groups, t ∈ e.2) ∧
    ¬(t ∈ (fpgComputeGroups gm tests).unmatched ∧
      ∃ e ∈ (fpgComputeGroups gm tests).groups, t ∈ e.2) ∧
    (∀ g : String,
      (∃ e ∈ (fpgComputeGroups gm tests).groups, e.1 = g ∧ t ∈ e.2) ↔
        g ∈ findMatchingGroups gm t) := by
  have hU : t ∈ (fpgComputeGroups gm tests).unmatched ↔
      findMatchingGroups gm t = [] := by
    rw [fpgComputeGroups, fpgLoop_unmatched]
    simp only [List.nil_append, List.mem_filter, List.isEmpty_iff]
    exact ⟨fun h => h.2, fun h => ⟨ht, h⟩⟩
  have hKeys : (fpgComputeGroups gm tests).groups.map Prod.fst =
      gm.map Prod.fst := by
    rw [fpgComputeGroups, keys_fpgLoop]
    simp [initGroups, Function.comp]
  have hndR : ((fpgComputeGroups gm tests).groups.map Prod.fst).Nodup := by
    rw [hKeys]; exact hnd
  have hLook : ∀ g : String, g ∈ gm.map Prod.fst →
      lookupA g (fpgComputeGroups gm tests).groups =
        some (groupTail gm g tests) := by
    intro g hg
    rw [fpgComputeGroups, fpgLoop_lookup, lookupA_initGroups, if_pos hg]
    simp
  have hG : ∀ g : String,
      (∃ e ∈ (fpgComputeGroups gm tests).groups, e.1 = g ∧ t ∈ e.2) ↔
        g ∈ findMatchingGroups gm t := by
    intro g
    constructor
    · rintro ⟨⟨g2, l⟩, he, rfl, htl⟩
      have hgk : g2 ∈ gm.map Prod.fst := by
        rw [← hKeys]
        exact List.mem_map.mpr ⟨(g2, l), he, rfl⟩
      have hLe : lookupA g2 (fpgComputeGroups gm tests).groups = some l :=
        (lookupA_mem_iff _ _ _ hndR).mp he
      have : l = groupTail gm g2 tests := by
        have h2 := (hLook g2 hgk).symm.trans hLe
        exact (Option.some.inj h2).symm
      rw [this] at htl
      exact ((mem_groupTail gm g2 tests t).mp htl).2
    · intro hg
      have hgk : g ∈ gm.map Prod.fst := findMatchingGroups_sub_keys gm t g hg
      refine ⟨(g, groupTail gm g tests), ?_, rfl, ?_⟩
      · exact (lookupA_mem_iff _ _ _ hndR).mpr (hLook g hgk)
      · exact (mem_groupTail gm g tests t).mpr ⟨ht, hg⟩
  refine ⟨?_, ?_, hG⟩
  · by_cases hFM : findMatchingGroups gm t = []
    · exact Or.inl (hU.mpr hFM)
    · obtain ⟨g, hg⟩ := List.exists_mem_of_ne_nil _ hFM
      obtain ⟨e, he, -, hte⟩ := (hG g).mpr hg
      exact Or.inr ⟨e, he, hte⟩
  · rintro ⟨hum, e, he, hte⟩
    have hFM : findMatchingGroups gm t = [] := hU.mp hum
    have : e.1 ∈ findMatchingGroups gm t := (hG e.1).mp ⟨e, he, rfl, hte⟩
    rw [hFM] at this
    exact absurd this (List.not_mem_nil _)

/-- Claim C4 witness: the amended invariant instantiated at the mapping
of the specification examples and the test whose value matches both
groups. -/
theorem grouping_membership_invariant_witness :
    ((gmFastSlow.map Prod.fst).Nodup ∧ testQuickSlowCombo ∈ [testQuickSlowCombo]) ∧
    ((testQuickSlowCombo ∈
        (fpgComputeGroups gmFastSlow [testQuickSlowCombo]).unmatched ∨
      ∃ e ∈ (fpgComputeGroups gmFastSlow [testQuickSlowCombo]).groups,
        testQuickSlowCombo ∈ e.2) ∧
    ¬(testQuickSlowCombo ∈
        (fpgComputeGroups gmFastSlow [testQuickSlowCombo]).unmatched ∧
      ∃ e ∈ (fpgComputeGroups gmFastSlow [testQuickSlowCombo]).groups,
        testQuickSlowCombo ∈ e.2) ∧
    (∀ g : String,
      (∃ e ∈ (fpgComputeGroups gmFastSlow [testQuickSlowCombo]).groups,
        e.1 = g ∧ testQuickSlowCombo ∈ e.2) ↔
        g ∈ findMatchingGroups gmFastSlow testQuickSlowCombo)) :=
  ⟨⟨by decide, by decide⟩,
    grouping_membership_invariant gmFastSlow [testQuickSlowCombo]
      testQuickSlowCombo (by decide) (by decide)⟩

/-- Claim C5: a group is matched for a test exactly when one of its
identifier substrings occurs case-insensitively inside the textual form
of one of the candidate values; with the mapping of the specification
examples, value quick_mode lands in group fast only and value
quick_slow_combo lands in both groups, with an empty unmatched list. -/
theorem matching_is_substring :
    (∀ (gm : List (String × List String)) (t : TestItem) (g : String),
        g ∈ findMatchingGroups gm t ↔
          ∃ ids, (g, ids) ∈ gm ∧ ∃ v ∈ candidateValues t, ∃ ident ∈ ids,
            strIn (pyLower ident) (pyLower v) = true) ∧
    fpgComputeGroups gmFastSlow [testQuickMode] =
      { groups := [("fast", [testQuickMode]), ("slow", [])], unmatched := [] } ∧
    fpgComputeGroups gmFastSlow [testQuickSlowCombo] =
      { groups := [("fast", [testQuickSlowCombo]), ("slow", [testQuickSlowCombo])],
        unmatched := [] } :=
  ⟨mem_findMatchingGroups, by decide, by decide⟩

/-- Claim C6 (code evaluated at the failing input): the claim says an
empty pipeline, including one just cleared, returns the input unchanged.
The conftest.py apply calls the commented-out config builder when the
stage list is empty and so raises AttributeError; the Pipeline.py apply
is the identity on an empty stage list. -/
theorem pipeline_empty_eval (p : TestFilterPipeline) (ts : List TestItem) :
    conftestPipelineApply { stagesList := [] } ts =
      Except.error "AttributeError: TestFilterPipeline object has no attribute _build_stages_from_config" ∧
    conftestPipelineApply (TestFilterPipeline.clear p) ts =
      Except.error "AttributeError: TestFilterPipeline object has no attribute _build_stages_from_config" ∧
    pipelinePyApply [] ts = ts :=
  ⟨rfl, rfl, rfl⟩

/-- Claim C7 (code evaluated at the failing input): the claim says the
resolved fixture-value map is consulted only when the parametrization map
is absent.  For a test carrying both, the source extends the candidate
list with the funcargs values in addition to the callspec values, so a
group whose identifier occurs only in a funcargs value is still
matched. -/
theorem candidate_values_additive_eval :
    candidateValues testBothSources = ["x", "slow_path"] ∧
    findMatchingGroups gmSlow testBothSources = ["slow"] ∧
    (fpgComputeGroups gmSlow [testBothSources]).unmatched = [] ∧
    (fpgComputeGroups gmSlow [testBothSources]).get_group "slow" =
      [testBothSources] := by
  decide

/-- Claim C8: a test with no run_days marker, or one whose marker yields
an empty allowed-days set, passes the day filter on every current day and
is kept by DateFilterStage.apply for every injected day. -/
theorem dateFilter_unconditional (t : TestItem)
    (h : t.runDays = none ∨ ∃ m, t.runDays = some m ∧ allowedDaysOf m = [])
    (inj now : Weekday) (ts : List TestItem) (hts : t ∈ ts) :
    (∀ d : Nat, shouldRunToday t d = true) ∧
    t ∈ DateFilterStage.apply { currentTime := some inj } now ts := by
  have hall : ∀ d : Nat, shouldRunToday t d = true := by
    intro d
    rcases h with h | ⟨m, hm, he⟩
    · simp [shouldRunToday, h]
    · simp [shouldRunToday, hm, he]
  refine ⟨hall, ?_⟩
  have happ : DateFilterStage.apply { currentTime := some inj } now ts =
      ts.filter (fun x => shouldRunToday x (pyWeekday inj)) := by
    simp [DateFilterStage.apply, dateFilterLoop_eq]
  rw [happ, List.mem_filter]
  exact ⟨hts, hall _⟩

/-- Claim C8 witness: the unconditional-run theorem at the test annotated
with the single unrecognized token funday, injected day Wednesday. -/
theorem dateFilter_unconditional_witness :
    ((testFunday.runDays = none ∨
        ∃ m, testFunday.runDays = some m ∧ allowedDaysOf m = []) ∧
      testFunday ∈ [testFunday]) ∧
    ((∀ d : Nat, shouldRunToday testFunday d = true) ∧
      testFunday ∈ DateFilterStage.apply { currentTime := some Weekday.wednesday }
        Weekday.sunday [testFunday]) :=
  ⟨⟨Or.inr ⟨_, rfl, by decide⟩, by decide⟩,
    dateFilter_unconditional testFunday (Or.inr ⟨_, rfl, by decide⟩)
      Weekday.wednesday Weekday.sunday [testFunday] (by decide)⟩

/-- Claim C9: for every injected current day and every input list,
DateFilterStage.apply returns exactly the filter of the input by
eligibility today, hence an order-preserving sub-sequence with no
additions. -/
theorem dateFilter_apply_is_filter (inj now : Weekday) (ts : List TestItem) :
    DateFilterStage.apply { currentTime := some inj } now ts =
      ts.filter (fun t => shouldRunToday t (pyWeekday inj)) ∧
    (DateFilterStage.apply { currentTime := some inj } now ts).Sublist ts := by
  have happ : DateFilterStage.apply { currentTime := some inj } now ts =
      ts.filter (fun t => shouldRunToday t (pyWeekday inj)) := by
    simp [DateFilterStage.apply, dateFilterLoop_eq]
  exact ⟨happ, happ ▸ List.filter_sublist ts⟩

/-- Claim C10: get_group on a grouping result returns the configured
membership list for a configured name and the empty list for a name
that is not configured. -/
theorem get_group_lookup (R : FixtureParameterGroups) (gName missing : String)
    (gl : List TestItem) (hnd : (R.groups.map Prod.fst).Nodup)
    (hmem : (gName, gl) ∈ R.groups)
    (hmiss : missing ∉ R.groups.map Prod.fst) :
    R.get_group gName = gl ∧ R.get_group missing = [] := by
  constructor
  · rw [FixtureParameterGroups.get_group, (lookupA_mem_iff _ _ _ hnd).mp hmem]
    rfl
  · rw [FixtureParameterGroups.get_group]
    have hnone : lookupA missing R.groups = none := by
      cases hL : lookupA missing R.groups with
      | none => rfl
      | some l =>
        exact absurd ((lookupA_isSome_iff _ _).mp (by rw [hL]; rfl)) hmiss
    rw [hnone]
    rfl

/-- Claim C10 witness: the lookup theorem applied to a concrete grouping
result, at the configured name fast and the unconfigured name ghost. -/
theorem get_group_lookup_witness :
    ((sampleGroups.groups.map Prod.fst).Nodup ∧
      ("fast", [testQuickMode]) ∈ sampleGroups.groups ∧
      "ghost" ∉ sampleGroups.groups.map Prod.fst) ∧
    (sampleGroups.get_group "fast" = [testQuickMode] ∧
      sampleGroups.get_group "ghost" = []) :=
  ⟨⟨by decide, by decide, by decide⟩,
    get_group_lookup sampleGroups "fast" "ghost" [testQuickMode]
      (by decide) (by decide) (by decide)⟩

end PytestPipeline
